import Mathlib

/-!
Shallow embedding of the tournament state engine of `src/script.js`
(PES-ECUP26).  The persisted state (the four localStorage keys) is
modelled as an explicit record of optional well-typed JSON values;
each engine operation becomes a pure function from state to state,
returning alongside the new state the list of user-visible alert
messages it emitted and its JS return value.  Numbers held in match
records are modelled as rationals (JSON numbers; `null` as `none`),
and the random shuffle is passed in as an explicit function parameter.
-/

namespace Ecup

/-- A group-stage match record, as built by `makeMatchObj` in
`src/script.js` (goals are `null` until the match is played). -/
structure Match where
  id : String
  groupIndex : Nat
  groupName : String
  round : Nat
  home : String
  away : String
  homeGoals : Option ℚ
  awayGoals : Option ℚ
  status : String
  deriving Repr, DecidableEq

/-- A knockout fixture (`r16` entries built in `tryAutoGenerateKnockout`). -/
structure Fixture where
  id : String
  home : String
  away : String
  homeGoals : Option ℚ
  awayGoals : Option ℚ
  status : String
  deriving Repr, DecidableEq

/-- The knockout bracket record `{ r16, qf: [], sf: [], final: [] }`. -/
structure Bracket where
  r16 : List Fixture
  qf : List Fixture
  sf : List Fixture
  final : List Fixture
  deriving Repr, DecidableEq

/-- The persisted tournament state: the four localStorage keys
`ef_groups`, `ef_matches`, `ef_generatedRounds`, `ef_knockout`;
`none` models an absent (or `null`) stored value.  The match list is
called `matches` in the source; `matchList` here because `matches` is
a reserved word in Lean. -/
structure St where
  groups : Option (List (List String))
  matchList : Option (List Match)
  rounds : Option Nat
  knockout : Option Bracket
  deriving Repr, DecidableEq

/-- JS coercion used on goal fields: `Number(x || 0)` and the numeric
relational operators both send `null` to `0`. -/
def g2n (g : Option ℚ) : ℚ := g.getD 0

/-- `String.replace(/\s+/g, '_')` on the character list: every maximal
run of whitespace becomes a single underscore.  The `Bool` argument
records whether the previous character was whitespace. -/
def sanitizeAux : Bool → List Char → List Char
  | _, [] => []
  | prevWs, c :: rest =>
    if c.isWhitespace then
      if prevWs then sanitizeAux true rest
      else '_' :: sanitizeAux true rest
    else c :: sanitizeAux false rest

/-- `name.replace(/\s+/g, '_')` from `mkMatchId`. -/
def sanitize (s : String) : String := String.mk (sanitizeAux false s.data)

/-- `mkMatchId(groupIndex, round, home, away)` from `src/script.js`. -/
def mkMatchId (groupIndex round : Nat) (home away : String) : String :=
  "G" ++ toString groupIndex ++ "_R" ++ toString round ++ "_" ++
    sanitize home ++ "__VS__" ++ sanitize away

/-- `String.fromCharCode(65 + groupIndex)`: the display letter of a group. -/
def groupLetter (gi : Nat) : String := String.mk [Char.ofNat (65 + gi)]

/-- `makeMatchObj(groupIndex, round, home, away)` from `src/script.js`. -/
def makeMatchObj (groupIndex round : Nat) (home away : String) : Match :=
  { id := mkMatchId groupIndex round home away
    groupIndex := groupIndex
    groupName := groupLetter groupIndex
    round := round
    home := home
    away := away
    homeGoals := none
    awayGoals := none
    status := "scheduled" }

/-- The per-group candidate fixtures of one round (`generateRound` body:
a group not of size 4 is skipped; rounds 1/2/3 pair by the fixed
round-robin template). -/
def groupCandidates (gi roundNumber : Nat) (g : List String) : List Match :=
  match g with
  | [t1, t2, t3, t4] =>
    if roundNumber = 1 then
      [makeMatchObj gi 1 t1 t2, makeMatchObj gi 1 t3 t4]
    else if roundNumber = 2 then
      [makeMatchObj gi 2 t1 t3, makeMatchObj gi 2 t2 t4]
    else if roundNumber = 3 then
      [makeMatchObj gi 3 t1 t4, makeMatchObj gi 3 t2 t3]
    else []
  | _ => []

/-- `if (!matches.find(m => m.id === c.id)) matches.push(c)`. -/
def pushIfNew (ms : List Match) (c : Match) : List Match :=
  if (ms.find? (fun m => m.id == c.id)).isNone then ms ++ [c] else ms

/-- One full `groups.forEach` pass of `generateRound`: for each group
(with its index) push the round's candidates that are not already
present by id. -/
def genPass (roundNumber : Nat) (groups : List (List String))
    (ms : List Match) : List Match :=
  groups.enum.foldl
    (fun ms p => (groupCandidates p.1 roundNumber p.2).foldl pushIfNew ms) ms

/-- `generateRound(roundNumber)` from `src/script.js`, as a state
transformer.  Result: new state, alerts raised, JS return value. -/
def generateRound (roundNumber : Nat) (st : St) :
    St × List String × Option (List Match) :=
  if roundNumber = 1 ∨ roundNumber = 2 ∨ roundNumber = 3 then
    match st.groups with
    | none => (st, ["Create groups first."], none)
    | some groups =>
      let ms0 := st.matchList.getD []
      let ms := genPass roundNumber groups ms0
      ({ st with matchList := some ms, rounds := some roundNumber }, [], some ms)
  else (st, [], none)

/-- A match with the given id is present in the list. -/
def idMem (ms : List Match) (i : String) : Prop := ∃ m ∈ ms, m.id = i

theorem idMem_pushIfNew (ms : List Match) (c : Match) (i : String)
    (h : idMem ms i) : idMem (pushIfNew ms c) i := by
  unfold pushIfNew
  split
  · obtain ⟨m, hm, hid⟩ := h
    exact ⟨m, List.mem_append_left _ hm, hid⟩
  · exact h

theorem idMem_pushIfNew_self (ms : List Match) (c : Match) :
    idMem (pushIfNew ms c) c.id := by
  unfold pushIfNew
  split
  · exact ⟨c, List.mem_append_right _ (List.mem_singleton_self c), rfl⟩
  · rename_i h
    rw [Option.isNone_iff_eq_none] at h
    rcases hfind : ms.find? (fun m => m.id == c.id) with _ | m
    · exact absurd hfind h
    · have := List.find?_some hfind
      exact ⟨m, List.mem_of_find?_eq_some hfind, by simpa using this⟩

theorem pushIfNew_of_idMem (ms : List Match) (c : Match)
    (h : idMem ms c.id) : pushIfNew ms c = ms := by
  unfold pushIfNew
  split
  · rename_i hnone
    rw [Option.isNone_iff_eq_none, List.find?_eq_none] at hnone
    obtain ⟨m, hm, hid⟩ := h
    exact absurd (by simpa using hid) (hnone m hm)
  · rfl

theorem idMem_foldl_pushIfNew (cs : List Match) (ms : List Match) (i : String)
    (h : idMem ms i) : idMem (cs.foldl pushIfNew ms) i := by
  induction cs generalizing ms with
  | nil => exact h
  | cons c cs ih => exact ih _ (idMem_pushIfNew ms c i h)

theorem idMem_foldl_pushIfNew_mem (cs : List Match) (ms : List Match)
    (c : Match) : c ∈ cs → idMem (cs.foldl pushIfNew ms) c.id := by
  induction cs generalizing ms with
  | nil => intro hc; cases hc
  | cons d cs ih =>
    intro hc
    rcases List.mem_cons.mp hc with h | h
    · subst h
      exact idMem_foldl_pushIfNew cs _ _ (idMem_pushIfNew_self ms c)
    · exact ih _ h

theorem foldl_pushIfNew_of_all_mem (cs : List Match) (ms : List Match)
    (h : ∀ c ∈ cs, idMem ms c.id) : cs.foldl pushIfNew ms = ms := by
  induction cs with
  | nil => rfl
  | cons c cs ih =>
    rw [List.foldl_cons, pushIfNew_of_idMem ms c (h c (List.mem_cons_self c cs))]
    exact ih (fun d hd => h d (List.mem_cons_of_mem _ hd))

/-- The body of the `groups.forEach` in `generateRound`, for one group
(paired with its index). -/
def genStep (roundNumber : Nat) (ms : List Match) (p : Nat × List String) :
    List Match :=
  (groupCandidates p.1 roundNumber p.2).foldl pushIfNew ms

theorem idMem_foldl_genStep (r : Nat) (gs : List (Nat × List String))
    (ms : List Match) (i : String) (h : idMem ms i) :
    idMem (gs.foldl (genStep r) ms) i := by
  induction gs generalizing ms with
  | nil => exact h
  | cons p gs ih => exact ih _ (idMem_foldl_pushIfNew _ _ _ h)

theorem idMem_foldl_genStep_cand (r : Nat) (gs : List (Nat × List String))
    (ms : List Match) (p : Nat × List String) (c : Match) :
    p ∈ gs → c ∈ groupCandidates p.1 r p.2 →
      idMem (gs.foldl (genStep r) ms) c.id := by
  induction gs generalizing ms with
  | nil => intro hp; cases hp
  | cons q gs ih =>
    intro hp hc
    rcases List.mem_cons.mp hp with h | h
    · subst h
      exact idMem_foldl_genStep r gs _ _
        (idMem_foldl_pushIfNew_mem _ _ _ hc)
    · exact ih _ h hc

theorem foldl_genStep_of_all_mem (r : Nat) (gs : List (Nat × List String))
    (ms : List Match)
    (h : ∀ p ∈ gs, ∀ c ∈ groupCandidates p.1 r p.2, idMem ms c.id) :
    gs.foldl (genStep r) ms = ms := by
  induction gs with
  | nil => rfl
  | cons p gs ih =>
    rw [List.foldl_cons]
    have hstep : genStep r ms p = ms :=
      foldl_pushIfNew_of_all_mem _ _ (h p (List.mem_cons_self p gs))
    rw [hstep]
    exact ih (fun q hq => h q (List.mem_cons_of_mem _ hq))

theorem genPass_eq_foldl (r : Nat) (groups : List (List String))
    (ms : List Match) :
    genPass r groups ms = groups.enum.foldl (genStep r) ms := rfl

theorem genPass_idem (r : Nat) (groups : List (List String)) (ms : List Match) :
    genPass r groups (genPass r groups ms) = genPass r groups ms := by
  simp only [genPass_eq_foldl]
  exact foldl_genStep_of_all_mem r _ _
    (fun p hp c hc => idMem_foldl_genStep_cand r _ ms p c hp hc)

/-- C1: invoking the round generator twice with the same round number
yields the same stored state as invoking it once — a candidate fixture
is appended only when no existing match has the same derived id, so the
second invocation appends nothing (and re-saves the same round
counter). -/
theorem generateRound_idempotent (r : Nat) (st : St) :
    (generateRound r (generateRound r st).1).1 = (generateRound r st).1 := by
  unfold generateRound
  split
  · rcases hg : st.groups with _ | groups
    · simp [hg]
    · simp only [hg]
      simp [genPass_idem]
  · rfl

/-- C3 (counterexample): the round generator does NOT always emit two
fixtures per group per round.  For the 4 distinct teams
`"a b", "c d", "a_b", "c_d"` the whitespace sanitization in
`mkMatchId` makes both round-1 candidates derive the same id
`G0_R1_a_b__VS__c_d`, so the second fixture is dropped by the
duplicate-id check and round 1 emits a single fixture. -/
theorem generateRound_collision_counterexample :
    ((generateRound 1
        { groups := some [["a b", "c d", "a_b", "c_d"]],
          matchList := some [], rounds := some 0,
          knockout := none }).1.matchList.getD []).length = 1 := by
  decide

/-- C3 (amended): for a group of 4 pairwise-distinct teams whose six
derived fixture ids are pairwise distinct, generating rounds 1, 2, 3
once each from an empty match list emits exactly the template fixtures
T1-T2, T3-T4 (round 1), T1-T3, T2-T4 (round 2), T1-T4, T2-T3
(round 3); every team then appears in exactly one fixture per round and
every unordered pair of teams in exactly one fixture overall. -/
theorem generateRound_roundRobin
    (T1 T2 T3 T4 : String) (st : St)
    (hg : st.groups = some [[T1, T2, T3, T4]])
    (hm : st.matchList = some [])
    (hT : ([T1, T2, T3, T4] : List String).Nodup)
    (hids : ([mkMatchId 0 1 T1 T2, mkMatchId 0 1 T3 T4,
              mkMatchId 0 2 T1 T3, mkMatchId 0 2 T2 T4,
              mkMatchId 0 3 T1 T4, mkMatchId 0 3 T2 T3]).Nodup) :
    (generateRound 1 st).1.matchList =
      some [makeMatchObj 0 1 T1 T2, makeMatchObj 0 1 T3 T4]
    ∧ (generateRound 2 (generateRound 1 st).1).1.matchList =
      some [makeMatchObj 0 1 T1 T2, makeMatchObj 0 1 T3 T4,
            makeMatchObj 0 2 T1 T3, makeMatchObj 0 2 T2 T4]
    ∧ (generateRound 3 (generateRound 2 (generateRound 1 st).1).1).1.matchList =
      some [makeMatchObj 0 1 T1 T2, makeMatchObj 0 1 T3 T4,
            makeMatchObj 0 2 T1 T3, makeMatchObj 0 2 T2 T4,
            makeMatchObj 0 3 T1 T4, makeMatchObj 0 3 T2 T3]
    ∧ (∀ t ∈ [T1, T2, T3, T4], ∀ r ∈ ([1, 2, 3] : List Nat),
        (((generateRound 3 (generateRound 2 (generateRound 1 st).1).1).1.matchList.getD
            []).filter
          (fun m => m.round == r && (m.home == t || m.away == t))).length = 1)
    ∧ (∀ t ∈ [T1, T2, T3, T4], ∀ u ∈ [T1, T2, T3, T4], t ≠ u →
        (((generateRound 3 (generateRound 2 (generateRound 1 st).1).1).1.matchList.getD
            []).filter
          (fun m =>
            (m.home == t && m.away == u) || (m.home == u && m.away == t))).length =
          1) := by
  simp only [List.nodup_cons, List.mem_cons, List.mem_singleton, not_or,
    List.nodup_nil, and_true, List.not_mem_nil, not_false_iff, true_and] at hT hids
  obtain ⟨⟨h12, h13, h14⟩, ⟨h23, h24⟩, h34⟩ := hT
  obtain ⟨⟨g12, g13, g14, g15, g16⟩, ⟨g23, g24, g25, g26⟩, ⟨g34, g35, g36⟩,
    ⟨g45, g46⟩, g56⟩ := hids
  have b12 : (T1 == T2) = false := beq_eq_false_iff_ne.mpr h12
  have b13 : (T1 == T3) = false := beq_eq_false_iff_ne.mpr h13
  have b14 : (T1 == T4) = false := beq_eq_false_iff_ne.mpr h14
  have b23 : (T2 == T3) = false := beq_eq_false_iff_ne.mpr h23
  have b24 : (T2 == T4) = false := beq_eq_false_iff_ne.mpr h24
  have b34 : (T3 == T4) = false := beq_eq_false_iff_ne.mpr h34
  have b21 : (T2 == T1) = false := beq_eq_false_iff_ne.mpr (Ne.symm h12)
  have b31 : (T3 == T1) = false := beq_eq_false_iff_ne.mpr (Ne.symm h13)
  have b41 : (T4 == T1) = false := beq_eq_false_iff_ne.mpr (Ne.symm h14)
  have b32 : (T3 == T2) = false := beq_eq_false_iff_ne.mpr (Ne.symm h23)
  have b42 : (T4 == T2) = false := beq_eq_false_iff_ne.mpr (Ne.symm h24)
  have b43 : (T4 == T3) = false := beq_eq_false_iff_ne.mpr (Ne.symm h34)
  have hst1 : (generateRound 1 st).1 =
      { st with matchList := some [makeMatchObj 0 1 T1 T2, makeMatchObj 0 1 T3 T4],
                rounds := some 1 } := by
    simp [generateRound, hg, hm, genPass, genStep, groupCandidates, pushIfNew,
      List.enum, List.enumFrom, makeMatchObj, beq_eq_false_iff_ne, g12]
  have hst2 : (generateRound 2 (generateRound 1 st).1).1 =
      { st with matchList := some [makeMatchObj 0 1 T1 T2, makeMatchObj 0 1 T3 T4,
                  makeMatchObj 0 2 T1 T3, makeMatchObj 0 2 T2 T4],
                rounds := some 2 } := by
    rw [hst1]
    simp [generateRound, hg, genPass, genStep, groupCandidates, pushIfNew,
      List.enum, List.enumFrom, makeMatchObj, beq_eq_false_iff_ne,
      g13, g23, g14, g24, g34]
  have hst3 : (generateRound 3 (generateRound 2 (generateRound 1 st).1).1).1 =
      { st with matchList := some [makeMatchObj 0 1 T1 T2, makeMatchObj 0 1 T3 T4,
                  makeMatchObj 0 2 T1 T3, makeMatchObj 0 2 T2 T4,
                  makeMatchObj 0 3 T1 T4, makeMatchObj 0 3 T2 T3],
                rounds := some 3 } := by
    rw [hst2]
    simp [generateRound, hg, genPass, genStep, groupCandidates, pushIfNew,
      List.enum, List.enumFrom, makeMatchObj, beq_eq_false_iff_ne,
      g15, g25, g35, g45, g16, g26, g36, g46, g56]
  refine ⟨by rw [hst1], by rw [hst2], by rw [hst3], ?_, ?_⟩
  · intro t ht r hr
    rw [hst3]
    fin_cases ht <;> fin_cases hr <;>
      simp [makeMatchObj, List.filter, b12, b13, b14, b23, b24, b34,
        b21, b31, b41, b32, b42, b43]
  · intro t ht u hu htu
    rw [hst3]
    fin_cases ht <;> fin_cases hu <;>
      first
      | exact absurd rfl htu
      | simp [makeMatchObj, List.filter, b12, b13, b14, b23, b24, b34,
          b21, b31, b41, b32, b42, b43]


def stW : St :=
  { groups := some [["Alpha", "Bravo", "Cedar", "Delta"]],
    matchList := some [], rounds := none, knockout := none }

/-- Witness for `generateRound_roundRobin` at a concrete group. -/
theorem generateRound_roundRobin_witness :
    (generateRound 1 stW).1.matchList =
      some [makeMatchObj 0 1 "Alpha" "Bravo", makeMatchObj 0 1 "Cedar" "Delta"] :=
  (generateRound_roundRobin "Alpha" "Bravo" "Cedar" "Delta" stW rfl rfl
    (by decide) (by decide)).1

/-- A standings row, as initialised by `computeStandings` (all counters
zero, `gd` recomputed as `gf - ga` before sorting). -/
structure Row where
  team : String
  played : Nat
  w : Nat
  d : Nat
  l : Nat
  gf : ℚ
  ga : ℚ
  gd : ℚ
  pts : Nat
  deriving Repr, DecidableEq

/-- The all-zero row `computeStandings` starts from for each team. -/
def initRow (team : String) : Row :=
  { team := team, played := 0, w := 0, d := 0, l := 0,
    gf := 0, ga := 0, gd := 0, pts := 0 }

/-- JS object mutation through an array `find`: update the first
element satisfying the predicate, leave the rest unchanged. -/
def updateFirst (p : α → Bool) (f : α → α) : List α → List α
  | [] => []
  | x :: xs => if p x then f x :: xs else x :: updateFirst p f xs

/-- The accumulated effect of one played match on the home side's row:
`played += 1`, `gf += Number(homeGoals || 0)`, `ga += ...`, then
win / draw / loss bookkeeping with 3 / 1 / 0 points (the raw JS
comparisons `m.homeGoals > m.awayGoals` coerce `null` to 0, which is
exactly `g2n`). -/
def homeUpd (m : Match) (r : Row) : Row :=
  let r := { r with played := r.played + 1,
                    gf := r.gf + g2n m.homeGoals,
                    ga := r.ga + g2n m.awayGoals }
  if g2n m.homeGoals > g2n m.awayGoals then { r with w := r.w + 1, pts := r.pts + 3 }
  else if g2n m.homeGoals < g2n m.awayGoals then { r with l := r.l + 1 }
  else { r with d := r.d + 1, pts := r.pts + 1 }

/-- The accumulated effect of one played match on the away side's row. -/
def awayUpd (m : Match) (r : Row) : Row :=
  let r := { r with played := r.played + 1,
                    gf := r.gf + g2n m.awayGoals,
                    ga := r.ga + g2n m.homeGoals }
  if g2n m.homeGoals > g2n m.awayGoals then { r with l := r.l + 1 }
  else if g2n m.homeGoals < g2n m.awayGoals then { r with w := r.w + 1, pts := r.pts + 3 }
  else { r with d := r.d + 1, pts := r.pts + 1 }

/-- One iteration of the `matches.forEach` in `computeStandings`:
skip anything not `played`, skip when the group index is out of range
or either team is missing from the group's rows, otherwise apply both
sides' updates (sequential first-match updates reproduce the JS object
mutations, including the aliased case `home == away`). -/
def accMatch (stats : List (List Row)) (m : Match) : List (List Row) :=
  if m.status = "played" then
    match stats[m.groupIndex]? with
    | none => stats
    | some grp =>
      if (grp.find? (fun x => x.team == m.home)).isSome &&
          (grp.find? (fun x => x.team == m.away)).isSome then
        stats.set m.groupIndex
          (updateFirst (fun x => x.team == m.away) (awayUpd m)
            (updateFirst (fun x => x.team == m.home) (homeUpd m) grp))
      else stats
  else stats

/-- `a.team.localeCompare(b.team)` modelled as code-point string
comparison returning -1 / 0 / 1. -/
def localeCompare (a b : String) : ℚ :=
  match compare a b with
  | Ordering.lt => -1
  | Ordering.eq => 0
  | Ordering.gt => 1

/-- The standings sort comparator of `computeStandings`:
points desc, goal difference desc, goals-for desc, name asc. -/
def jsCmpRow (a b : Row) : ℚ :=
  if (b.pts : ℚ) ≠ (a.pts : ℚ) then (b.pts : ℚ) - (a.pts : ℚ)
  else if b.gd ≠ a.gd then b.gd - a.gd
  else if b.gf ≠ a.gf then b.gf - a.gf
  else localeCompare a.team b.team

/-- `Array.prototype.sort` ordering induced by the comparator. -/
def rowLeB (a b : Row) : Bool := decide (jsCmpRow a b ≤ 0)

/-- Insert into a sorted list (comparator-based sort model). -/
def sortInsert (le : α → α → Bool) (x : α) : List α → List α
  | [] => [x]
  | y :: ys => if le x y then x :: y :: ys else y :: sortInsert le x ys

/-- Comparator-based sort (insertion sort; JS engines' sort is some
stable comparison sort — the claims below only use that the result is
a permutation of the input). -/
def sortByCmp (le : α → α → Bool) : List α → List α
  | [] => []
  | x :: xs => sortInsert le x (sortByCmp le xs)

/-- `computeStandings()` from `src/script.js`: one ranked row list per
group; each output entry is the row paired with its 1-based position. -/
def computeStandings (st : St) : List (List (Row × Nat)) :=
  let groups := st.groups.getD []
  let ms := st.matchList.getD []
  let stats0 := groups.map (fun g => g.map initRow)
  let stats := ms.foldl accMatch stats0
  stats.map (fun arr =>
    let arr2 := arr.map (fun o => { o with gd := o.gf - o.ga })
    let sorted := sortByCmp rowLeB arr2
    sorted.enum.map (fun p => (p.2, p.1 + 1)))

/-- The accounting invariant of a standings row. -/
def rowInv (r : Row) : Prop :=
  r.played = r.w + r.d + r.l ∧ r.pts = 3 * r.w + r.d

theorem rowInv_initRow (t : String) : rowInv (initRow t) := by
  constructor <;> rfl

theorem rowInv_homeUpd (m : Match) (r : Row) (h : rowInv r) :
    rowInv (homeUpd m r) := by
  obtain ⟨h1, h2⟩ := h
  unfold homeUpd
  dsimp only
  split
  · exact ⟨by simp [h1]; ring, by simp [h2]; ring⟩
  · split
    · exact ⟨by simp [h1]; ring, by simp [h2]⟩
    · exact ⟨by simp [h1]; ring, by simp [h2]; ring⟩

theorem rowInv_awayUpd (m : Match) (r : Row) (h : rowInv r) :
    rowInv (awayUpd m r) := by
  obtain ⟨h1, h2⟩ := h
  unfold awayUpd
  dsimp only
  split
  · exact ⟨by simp [h1]; ring, by simp [h2]⟩
  · split
    · exact ⟨by simp [h1]; ring, by simp [h2]; ring⟩
    · exact ⟨by simp [h1]; ring, by simp [h2]; ring⟩

theorem rowInv_updateFirst (p : Row → Bool) (f : Row → Row)
    (hf : ∀ r, rowInv r → rowInv (f r)) (l : List Row)
    (hl : ∀ r ∈ l, rowInv r) : ∀ r ∈ updateFirst p f l, rowInv r := by
  induction l with
  | nil => intro r hr; cases hr
  | cons x xs ih =>
    intro r hr
    unfold updateFirst at hr
    split at hr
    · rcases List.mem_cons.mp hr with h | h
      · exact h ▸ hf x (hl x (List.mem_cons_self x xs))
      · exact hl r (List.mem_cons_of_mem _ h)
    · rcases List.mem_cons.mp hr with h | h
      · exact h ▸ hl x (List.mem_cons_self x xs)
      · exact ih (fun s hs => hl s (List.mem_cons_of_mem _ hs)) r h

theorem rowInv_accMatch (stats : List (List Row)) (m : Match)
    (h : ∀ grp ∈ stats, ∀ r ∈ grp, rowInv r) :
    ∀ grp ∈ accMatch stats m, ∀ r ∈ grp, rowInv r := by
  unfold accMatch
  split
  · rcases hidx : stats[m.groupIndex]? with _ | grp
    · exact h
    · dsimp only
      split
      · intro grp2 hgrp2 r hr
        rcases List.mem_or_eq_of_mem_set hgrp2 with hmem | heq
        · exact h grp2 hmem r hr
        · subst heq
          have hgrp : ∀ r ∈ grp, rowInv r := by
            obtain ⟨hlt, hget⟩ := List.getElem?_eq_some.mp hidx
            exact h grp (hget ▸ List.getElem_mem _)
          exact rowInv_updateFirst _ _ (rowInv_awayUpd m)
            _ (rowInv_updateFirst _ _ (rowInv_homeUpd m) _ hgrp) r hr
      · exact h
  · exact h

theorem rowInv_foldl_accMatch (ms : List Match) (stats : List (List Row))
    (h : ∀ grp ∈ stats, ∀ r ∈ grp, rowInv r) :
    ∀ grp ∈ ms.foldl accMatch stats, ∀ r ∈ grp, rowInv r := by
  induction ms generalizing stats with
  | nil => exact h
  | cons m ms ih => exact ih _ (rowInv_accMatch stats m h)

theorem mem_sortInsert (le : α → α → Bool) (x a : α) (l : List α) :
    a ∈ sortInsert le x l ↔ a = x ∨ a ∈ l := by
  induction l with
  | nil => simp [sortInsert]
  | cons y ys ih =>
    unfold sortInsert
    split
    · simp [List.mem_cons]
    · simp only [List.mem_cons, ih]
      tauto

theorem mem_sortByCmp (le : α → α → Bool) (a : α) (l : List α) :
    a ∈ sortByCmp le l ↔ a ∈ l := by
  induction l with
  | nil => simp [sortByCmp]
  | cons x xs ih =>
    unfold sortByCmp
    rw [mem_sortInsert, ih, List.mem_cons]

theorem snd_mem_of_mem_enumFrom (l : List α) (n : Nat) (p : Nat × α)
    (h : p ∈ l.enumFrom n) : p.2 ∈ l := by
  induction l generalizing n with
  | nil => cases h
  | cons x xs ih =>
    rcases List.mem_cons.mp h with h1 | h1
    · subst h1; exact List.mem_cons_self x xs
    · exact List.mem_cons_of_mem _ (ih _ h1)

theorem snd_mem_of_mem_enum (l : List α) (p : Nat × α) (h : p ∈ l.enum) :
    p.2 ∈ l :=
  snd_mem_of_mem_enumFrom l 0 p h

/-- C2: every row produced by the standings calculator satisfies
`played = w + d + l`, `pts = 3w + d` and `gd = gf - ga`, and matches
with status `scheduled` contribute nothing: dropping them from the
stored match list leaves the computed standings unchanged. -/
theorem computeStandings_invariants (st : St) :
    (∀ grp ∈ computeStandings st, ∀ rp ∈ grp,
        rp.1.played = rp.1.w + rp.1.d + rp.1.l
        ∧ rp.1.pts = 3 * rp.1.w + rp.1.d
        ∧ rp.1.gd = rp.1.gf - rp.1.ga)
    ∧ computeStandings st =
        computeStandings
          { st with
            matchList := some ((st.matchList.getD []).filter
              (fun m => !(m.status == "scheduled"))) } := by
  constructor
  · intro grp hgrp rp hrp
    unfold computeStandings at hgrp
    simp only [List.mem_map] at hgrp
    obtain ⟨arr, harr, rfl⟩ := hgrp
    simp only [List.mem_map] at hrp
    obtain ⟨p, hp, rfl⟩ := hrp
    have hrow := snd_mem_of_mem_enum _ _ hp
    rw [mem_sortByCmp] at hrow
    simp only [List.mem_map] at hrow
    obtain ⟨o, ho, heq⟩ := hrow
    have hinv : rowInv o := by
      have hstats : ∀ grp ∈ (st.matchList.getD []).foldl accMatch
          ((st.groups.getD []).map (fun g => g.map initRow)),
          ∀ r ∈ grp, rowInv r := by
        apply rowInv_foldl_accMatch
        intro grp2 hg2 r hr
        simp only [List.mem_map] at hg2
        obtain ⟨g, _, rfl⟩ := hg2
        simp only [List.mem_map] at hr
        obtain ⟨t, _, rfl⟩ := hr
        exact rowInv_initRow t
      exact hstats arr harr o ho
    obtain ⟨h1, h2⟩ := hinv
    show p.2.played = _ ∧ p.2.pts = _ ∧ p.2.gd = _
    rw [← heq]
    exact ⟨h1, h2, rfl⟩
  · unfold computeStandings
    simp only
    congr 1
    generalize (st.groups.getD []).map (fun g => g.map initRow) = stats0
    induction (st.matchList.getD []) generalizing stats0 with
    | nil => rfl
    | cons m ms ih =>
      by_cases hms : m.status = "scheduled"
      · have : accMatch stats0 m = stats0 := by
          unfold accMatch
          rw [hms]
          simp
        simp [List.filter_cons, hms, this, ih]
      · simp [List.filter_cons, hms, ih]

/-- A concrete state: group [A,B,C,D] with the single played result
A 2-1 B (the spec's worked example). -/
def mC2 : Match :=
  { makeMatchObj 0 1 "A" "B" with
      homeGoals := some 2, awayGoals := some 1, status := "played" }

def stC2 : St :=
  { groups := some [["A", "B", "C", "D"]],
    matchList := some [mC2],
    rounds := some 1, knockout := none }

/-- The computed row of team A in `stC2`. -/
def rowA : Row :=
  { team := "A", played := 1, w := 1, d := 0, l := 0,
    gf := 2, ga := 1, gd := 1, pts := 3 }

/-- The computed row of team B in `stC2`. -/
def rowB : Row :=
  { team := "B", played := 1, w := 0, d := 0, l := 1,
    gf := 1, ga := 2, gd := -1, pts := 0 }

/-- The computed standings of the single group of `stC2`. -/
def grpC2 : List (Row × Nat) :=
  [(rowA, 1), (initRow "C", 2), (initRow "D", 3), (rowB, 4)]

theorem computeStandings_stC2 : computeStandings stC2 = [grpC2] := by
  norm_num [computeStandings, stC2, mC2, accMatch, updateFirst, homeUpd, awayUpd,
    initRow, makeMatchObj, g2n, sortByCmp, sortInsert, rowLeB, jsCmpRow,
    localeCompare, grpC2, rowA, rowB, List.enum, List.enumFrom, mkMatchId,
    sanitize, sanitizeAux, groupLetter]

/-- Witness for `computeStandings_invariants` at the concrete state
`stC2` and the row of team A. -/
theorem computeStandings_invariants_witness :
    rowA.played = rowA.w + rowA.d + rowA.l
    ∧ rowA.pts = 3 * rowA.w + rowA.d
    ∧ rowA.gd = rowA.gf - rowA.ga :=
  (computeStandings_invariants stC2).1 grpC2
    (computeStandings_stC2 ▸ List.mem_singleton_self grpC2) (rowA, 1)
    (by simp [grpC2])

/-- `createGroups(randomize)` from `src/script.js`.  `sh` is the
`shuffle` helper (an unbiased Fisher-Yates shuffle; modelled as an
explicit function parameter), `teams` is `window.teams` (`none` when
missing or not an array).  Result: new state, alerts, JS return
value. -/
def createGroups (sh : List String → List String) (randomize : Bool)
    (teams : Option (List String)) (st : St) :
    St × List String × Option (List (List String)) :=
  match teams with
  | none => (st, ["Teams list missing or incomplete (teams.js)."], none)
  | some ts =>
    if ts.length < 24 then
      (st, ["Teams list missing or incomplete (teams.js)."], none)
    else
      let order := if randomize then sh ts else ts.take 24
      let groups := (List.range 6).map (fun i => (order.drop (i * 4)).take 4)
      ({ st with
          groups := some groups, matchList := some [],
          rounds := some 0, knockout := none }, [], some groups)

/-- A JSON value as far as the persistence boundary is concerned:
`none` is the JSON text `null`, `some v` any other value (left
abstract). -/
def JsonVal (α : Type) : Type := Option α

/-- The unguarded body of `load(key)`:
`JSON.parse(localStorage.getItem(key))`.  `p` models `JSON.parse` as a
fallible parser (`Except`: `error` = a thrown `SyntaxError`), `store`
the localStorage contents.  An absent key makes `getItem` return
`null`, which `JSON.parse` coerces to the text "null" and parses to
the JSON value `null`. -/
def loadBody (p : String → Except String (JsonVal α))
    (store : String → Option String) (key : String) :
    Except String (JsonVal α) :=
  match store key with
  | none => Except.ok none
  | some s => p s

/-- `load(key)` from `src/script.js`: the body wrapped in
`try ... catch (e) { return null; }`. -/
def load (p : String → Except String (JsonVal α))
    (store : String → Option String) (key : String) : JsonVal α :=
  match loadBody p store key with
  | Except.ok v => v
  | Except.error _ => none

/-- C5: for every parser, store and key, when the stored value is
absent or fails to parse, `load` returns the absent value `null`; the
`try`/`catch` means no exception crosses the boundary (the result type
of `load` is a plain value, with the thrown error of `loadBody` caught
and turned into `null`). -/
theorem load_fails_soft (p : String → Except String (JsonVal α))
    (store : String → Option String) (key : String)
    (h : store key = none ∨ ∃ s e, store key = some s ∧ p s = Except.error e) :
    load p store key = none := by
  rcases h with h | ⟨s, e, hs, hp⟩
  · simp [load, loadBody, h]
  · simp [load, loadBody, hs, hp]

/-- Witness for `load_fails_soft`: a one-key store whose value is
rejected by the parser. -/
theorem load_fails_soft_witness :
    load (fun _ => (Except.error "Unexpected token" : Except String (JsonVal Nat)))
      (fun k => if k = "ef_groups" then some "not json" else none) "ef_groups" =
      none :=
  load_fails_soft _ _ "ef_groups"
    (Or.inr ⟨"not json", "Unexpected token", by simp, rfl⟩)

/-- C6: whenever group creation succeeds it stores 6 groups of 4 teams
and in the same operation resets the match list to empty, the rounds
counter to 0 and the knockout bracket to absent.  (The shuffle is
length-preserving, which any permutation is.) -/
theorem createGroups_success (sh : List String → List String)
    (randomize : Bool) (ts : List String) (st : St)
    (hlen : 24 ≤ ts.length)
    (hsh : (sh ts).length = ts.length) :
    ∃ gs, (createGroups sh randomize (some ts) st).1 =
        { st with
            groups := some gs, matchList := some [],
            rounds := some 0, knockout := none }
      ∧ (createGroups sh randomize (some ts) st).2.2 = some gs
      ∧ gs.length = 6 ∧ ∀ g ∈ gs, g.length = 4 := by
  simp only [createGroups]
  rw [if_neg (by omega)]
  refine ⟨_, rfl, rfl, by simp, ?_⟩
  intro g hg
  simp only [List.mem_map, List.mem_range] at hg
  obtain ⟨i, hi, rfl⟩ := hg
  have horder : 24 ≤ (if randomize then sh ts else ts.take 24).length := by
    split
    · omega
    · simp [List.length_take]; omega
  rw [List.length_take, List.length_drop]
  omega

/-- The empty persisted state (nothing stored yet). -/
def emptySt : St :=
  { groups := none, matchList := none, rounds := none, knockout := none }

/-- A 24-name roster. -/
def roster24 : List String := (List.range 24).map (fun i => toString i)

/-- Witness for `createGroups_success` with the identity shuffle and a
24-name roster. -/
theorem createGroups_success_witness :
    ∃ gs, (createGroups id true (some roster24) emptySt).1 =
        { emptySt with
          groups := some gs, matchList := some [],
          rounds := some 0, knockout := none }
      ∧ (createGroups id true (some roster24) emptySt).2.2 = some gs
      ∧ gs.length = 6 ∧ ∀ g ∈ gs, g.length = 4 :=
  createGroups_success id true roster24 emptySt (by decide) rfl

/-- C7: with a roster of fewer than 24 entries, group creation reports
an input error (the alert) and leaves every piece of persisted state
unchanged (it returns `null` and performs no store write). -/
theorem createGroups_short_roster (sh : List String → List String)
    (randomize : Bool) (teams : Option (List String)) (st : St)
    (hshort : ∀ ts, teams = some ts → ts.length < 24) :
    (createGroups sh randomize teams st).1 = st
    ∧ (createGroups sh randomize teams st).2.1 =
        ["Teams list missing or incomplete (teams.js)."]
    ∧ (createGroups sh randomize teams st).2.2 = none := by
  match teams with
  | none => exact ⟨rfl, rfl, rfl⟩
  | some ts =>
    simp only [createGroups]
    rw [if_pos (hshort ts rfl)]
    exact ⟨rfl, rfl, rfl⟩

/-- Witness for `createGroups_short_roster` on a 2-name roster. -/
theorem createGroups_short_roster_witness :
    (createGroups id true (some ["A", "B"]) stW).1 = stW
    ∧ (createGroups id true (some ["A", "B"]) stW).2.1 =
        ["Teams list missing or incomplete (teams.js)."]
    ∧ (createGroups id true (some ["A", "B"]) stW).2.2 = none :=
  createGroups_short_roster id true (some ["A", "B"]) stW
    (by intro ts hts; cases hts; decide)

/-- `hg < 0` in JS on a `Number(...)` result: `false` for `NaN`
(`none`), otherwise the numeric comparison. -/
def negB : Option ℚ → Bool
  | none => false
  | some x => decide (x < 0)

/-- The validation `isNaN(hg) || isNaN(ag) || hg < 0 || ag < 0` of
`saveScoreFromModal` (`none` models a `NaN` conversion result). -/
def jsInvalidGoals (hg ag : Option ℚ) : Bool :=
  hg.isNone || ag.isNone || negB hg || negB ag

/-- The three field assignments of `saveScoreFromModal` on the found
match: `homeGoals = hg; awayGoals = ag; status = 'played'`. -/
def setScore (hg ag : Option ℚ) (m : Match) : Match :=
  { m with homeGoals := hg, awayGoals := ag, status := "played" }

/-- `matches.findIndex(m => m.id === currentEditingId)` followed by the
in-place mutation: `none` models `idx === -1`. -/
def updateMatch (hg ag : Option ℚ) (eid : String) :
    List Match → Option (List Match)
  | [] => none
  | m :: ms =>
    if m.id == eid then some (setScore hg ag m :: ms)
    else (updateMatch hg ag eid ms).map (fun l => m :: l)

/-- `saveScoreFromModal()` from `src/script.js` with the two modal
fields already converted by `Number(...)` (`none` = `NaN`) and
`currentEditingId = eid`.  Models the submission itself, up to the
`save(KEY_MATCHES, matches)`; the subsequent re-renders and the
`tryAutoGenerateKnockout()` poll are separate operations (modelled
by `tryAutoGenerateKnockout` below). -/
def saveScoreFromModal (hg ag : Option ℚ) (eid : String) (st : St) :
    St × List String :=
  if jsInvalidGoals hg ag then (st, ["Invalid goals input"])
  else
    match updateMatch hg ag eid (st.matchList.getD []) with
    | none => (st, [])
    | some ms2 => ({ st with matchList := some ms2 }, [])

theorem updateMatch_spec (hg ag : Option ℚ) (eid : String)
    (ms ms2 : List Match) (h : updateMatch hg ag eid ms = some ms2) :
    ∃ i m, ms[i]? = some m ∧ m.id = eid
      ∧ ms2 = ms.set i (setScore hg ag m) := by
  induction ms generalizing ms2 with
  | nil => cases h
  | cons m ms ih =>
    unfold updateMatch at h
    split at h
    · rename_i hbeq
      have h2 : setScore hg ag m :: ms = ms2 := Option.some.inj h
      refine ⟨0, m, by simp, by simpa using hbeq, ?_⟩
      rw [← h2]
      rfl
    · rcases hrec : updateMatch hg ag eid ms with _ | l2
      · rw [hrec] at h; cases h
      · rw [hrec] at h
        rw [Option.map_some'] at h
        replace h := Option.some.inj h
        obtain ⟨i, m', hget, hid, hset⟩ := ih l2 hrec
        exact ⟨i + 1, m', by simpa using hget, hid, by simp [← h, hset]⟩

/-- C9: an accepted score submission that finds its target match
changes the stored match list only at that match — the first match
whose id equals the submitted id — replacing it by the same match with
only `homeGoals`, `awayGoals`, `status` changed (to the submitted
values and `played`); the stored groups and rounds counter are not
written by the submission itself. -/
theorem saveScoreFromModal_frame (hg ag : Option ℚ) (eid : String) (st : St)
    (hv : jsInvalidGoals hg ag = false)
    (hfound : updateMatch hg ag eid (st.matchList.getD []) ≠ none) :
    ∃ i m, (st.matchList.getD [])[i]? = some m ∧ m.id = eid
      ∧ (saveScoreFromModal hg ag eid st).1.matchList =
          some ((st.matchList.getD []).set i (setScore hg ag m))
      ∧ (setScore hg ag m).id = m.id
      ∧ (setScore hg ag m).groupIndex = m.groupIndex
      ∧ (setScore hg ag m).round = m.round
      ∧ (setScore hg ag m).home = m.home
      ∧ (setScore hg ag m).away = m.away
      ∧ (setScore hg ag m).homeGoals = hg
      ∧ (setScore hg ag m).awayGoals = ag
      ∧ (setScore hg ag m).status = "played"
      ∧ (∀ j, j ≠ i →
          ((st.matchList.getD []).set i (setScore hg ag m))[j]? =
            (st.matchList.getD [])[j]?)
      ∧ (saveScoreFromModal hg ag eid st).1.groups = st.groups
      ∧ (saveScoreFromModal hg ag eid st).1.rounds = st.rounds := by
  rcases hup : updateMatch hg ag eid (st.matchList.getD []) with _ | ms2
  · exact absurd hup hfound
  · obtain ⟨i, m, hget, hid, hset⟩ := updateMatch_spec hg ag eid _ ms2 hup
    refine ⟨i, m, hget, hid, ?_, rfl, rfl, rfl, rfl, rfl, rfl, rfl, rfl,
      ?_, ?_, ?_⟩
    · simp [saveScoreFromModal, hv, hup, hset]
    · intro j hj
      exact List.getElem?_set_ne (fun he => hj he.symm)
    · simp [saveScoreFromModal, hv, hup]
    · simp [saveScoreFromModal, hv, hup]

/-- Witness for `saveScoreFromModal_frame`: resubmitting a score of
4 - 0 for the played match of `stC2`. -/
theorem saveScoreFromModal_frame_witness :
    ∃ i m, (stC2.matchList.getD [])[i]? = some m
      ∧ m.id = mkMatchId 0 1 "A" "B"
      ∧ (saveScoreFromModal (some 4) (some 0) (mkMatchId 0 1 "A" "B")
            stC2).1.matchList =
          some ((stC2.matchList.getD []).set i (setScore (some 4) (some 0) m))
      ∧ (setScore (some 4) (some 0) m).id = m.id
      ∧ (setScore (some 4) (some 0) m).groupIndex = m.groupIndex
      ∧ (setScore (some 4) (some 0) m).round = m.round
      ∧ (setScore (some 4) (some 0) m).home = m.home
      ∧ (setScore (some 4) (some 0) m).away = m.away
      ∧ (setScore (some 4) (some 0) m).homeGoals = some 4
      ∧ (setScore (some 4) (some 0) m).awayGoals = some 0
      ∧ (setScore (some 4) (some 0) m).status = "played"
      ∧ (∀ j, j ≠ i →
          ((stC2.matchList.getD []).set i (setScore (some 4) (some 0) m))[j]? =
            (stC2.matchList.getD [])[j]?)
      ∧ (saveScoreFromModal (some 4) (some 0) (mkMatchId 0 1 "A" "B")
          stC2).1.groups = stC2.groups
      ∧ (saveScoreFromModal (some 4) (some 0) (mkMatchId 0 1 "A" "B")
          stC2).1.rounds = stC2.rounds :=
  saveScoreFromModal_frame (some 4) (some 0) (mkMatchId 0 1 "A" "B") stC2
    (by norm_num [jsInvalidGoals, negB])
    (fun hnone => by
      rw [show updateMatch (some 4) (some 0) (mkMatchId 0 1 "A" "B")
          (stC2.matchList.getD []) =
          some [setScore (some 4) (some 0) mC2] from by
        norm_num [updateMatch, stC2, mC2, makeMatchObj]] at hnone
      cases hnone)

/-- C10: score submission alerts and leaves the state unchanged exactly
when one of the two converted inputs is `NaN` or negative; any accepted
pair of non-negative numbers — integer or not — is stored verbatim with
status `played` on the first match carrying the submitted id. -/
theorem saveScoreFromModal_validation (hg ag : Option ℚ) (eid : String)
    (st : St) :
    (((saveScoreFromModal hg ag eid st).2 = ["Invalid goals input"]
        ∧ (saveScoreFromModal hg ag eid st).1 = st)
      ↔ (hg = none ∨ ag = none
          ∨ (∃ x, hg = some x ∧ x < 0) ∨ (∃ y, ag = some y ∧ y < 0)))
    ∧ (∀ x y, hg = some x → ag = some y → 0 ≤ x → 0 ≤ y →
        ∀ ms2, updateMatch hg ag eid (st.matchList.getD []) = some ms2 →
          (saveScoreFromModal hg ag eid st).1.matchList = some ms2
          ∧ ∃ i m, (st.matchList.getD [])[i]? = some m ∧ m.id = eid
              ∧ ms2 = (st.matchList.getD []).set i
                  { m with homeGoals := some x, awayGoals := some y,
                           status := "played" }) := by
  have hchar : jsInvalidGoals hg ag = true ↔
      (hg = none ∨ ag = none
        ∨ (∃ x, hg = some x ∧ x < 0) ∨ (∃ y, ag = some y ∧ y < 0)) := by
    rcases hg with _ | x <;> rcases ag with _ | y <;>
      simp [jsInvalidGoals, negB]
  constructor
  · constructor
    · intro ⟨halert, _⟩
      by_contra hcond
      have hfalse : jsInvalidGoals hg ag = false := by
        rcases hbool : jsInvalidGoals hg ag with _ | _
        · rfl
        · exact absurd (hchar.mp hbool) hcond
      rcases hup : updateMatch hg ag eid (st.matchList.getD []) with _ | ms2 <;>
        simp [saveScoreFromModal, hfalse, hup] at halert
    · intro hcond
      have htrue : jsInvalidGoals hg ag = true := hchar.mpr hcond
      exact ⟨by simp [saveScoreFromModal, htrue], by simp [saveScoreFromModal, htrue]⟩
  · intro x y hx hy hx0 hy0 ms2 hup
    have hfalse : jsInvalidGoals hg ag = false := by
      subst hx; subst hy
      simp [jsInvalidGoals, negB, not_lt.mpr hx0, not_lt.mpr hy0]
    refine ⟨by simp [saveScoreFromModal, hfalse, hup], ?_⟩
    obtain ⟨i, m, hget, hid, hset⟩ := updateMatch_spec hg ag eid _ ms2 hup
    exact ⟨i, m, hget, hid, by rw [hset]; subst hx; subst hy; rfl⟩

/-- Witness for `saveScoreFromModal_validation`: the non-integer score
3/2 - 1 is accepted and stored verbatim on the match of `stC2`. -/
theorem saveScoreFromModal_validation_witness :
    (saveScoreFromModal (some (3 / 2)) (some 1) (mkMatchId 0 1 "A" "B")
        stC2).1.matchList =
      some [{ mC2 with homeGoals := some (3 / 2), awayGoals := some 1,
                       status := "played" }] :=
  ((saveScoreFromModal_validation (some (3 / 2)) (some 1)
      (mkMatchId 0 1 "A" "B") stC2).2 (3 / 2) 1 rfl rfl (by norm_num)
      (by norm_num)
      [{ mC2 with homeGoals := some (3 / 2), awayGoals := some 1,
                  status := "played" }]
      (by norm_num [updateMatch, stC2, mC2, makeMatchObj, setScore])).1

/-- A knockout-pool entrant `{team, group, seed}` as assembled in
`tryAutoGenerateKnockout`. -/
structure Entrant where
  team : String
  group : String
  seed : String
  deriving Repr, DecidableEq, Inhabited

/-- A third-place row annotated with its group letter
(`{...third, group}` in `getBestFourThirds`). -/
structure Third where
  row : Row
  position : Nat
  group : String
  deriving Repr, DecidableEq

/-- The comparator of `getBestFourThirds`: points desc, `gf - ga` desc
(recomputed, not the `gd` field), goals-for desc, name asc. -/
def jsCmpThird (a b : Third) : ℚ :=
  if (b.row.pts : ℚ) ≠ (a.row.pts : ℚ) then (b.row.pts : ℚ) - (a.row.pts : ℚ)
  else if (b.row.gf - b.row.ga) ≠ (a.row.gf - a.row.ga) then
    (b.row.gf - b.row.ga) - (a.row.gf - a.row.ga)
  else if b.row.gf ≠ a.row.gf then b.row.gf - a.row.gf
  else localeCompare a.row.team b.row.team

/-- Sort ordering induced by `jsCmpThird`. -/
def thirdLeB (a b : Third) : Bool := decide (jsCmpThird a b ≤ 0)

/-- `getBestFourThirds(sortedStandings)` from `src/script.js`:
collect each group's position-3 row, sort, return
`(all, qualified = first 4)`. -/
def getBestFourThirds (sorted : List (List (Row × Nat))) :
    List Third × List Third :=
  let thirds := sorted.enum.foldl
    (fun acc p =>
      match p.2.find? (fun el => el.2 == 3) with
      | some el => acc ++ [⟨el.1, el.2, groupLetter p.1⟩]
      | none => acc) []
  let ts := sortByCmp thirdLeB thirds
  (ts, ts.take 4)

/-- The indices `j = i+1, ..., 7` scanned by the repair loops. -/
def scanIdx (i : Nat) : List Nat := List.range' (i + 1) (8 - (i + 1))

/-- The away-half swap guard of the repair loop:
`homeSlice[i].group !== awaySlice[j].group &&
 homeSlice[j].group !== awaySlice[i].group`. -/
def awaySwapOk (h a : List Entrant) (i j : Nat) : Bool :=
  ((h.getD i default).group != (a.getD j default).group) &&
    ((h.getD j default).group != (a.getD i default).group)

/-- The home-half swap guard of the repair loop:
`awaySlice[i].group !== homeSlice[j].group &&
 awaySlice[j].group !== homeSlice[i].group`. -/
def homeSwapOk (h a : List Entrant) (i j : Nat) : Bool :=
  ((a.getD i default).group != (h.getD j default).group) &&
    ((a.getD j default).group != (h.getD i default).group)

/-- First `j > i` accepted by the away-half scan (the inner
`for (j = i+1; j < 8; j++) ... break`). -/
def findAwaySwap (h a : List Entrant) (i : Nat) : Option Nat :=
  (scanIdx i).find? (awaySwapOk h a i)

/-- First `j > i` accepted by the home-half scan. -/
def findHomeSwap (h a : List Entrant) (i : Nat) : Option Nat :=
  (scanIdx i).find? (homeSwapOk h a i)

/-- The three-assignment swap `tmp = l[j]; l[j] = l[i]; l[i] = tmp`. -/
def swapAt (l : List Entrant) (i j : Nat) : List Entrant :=
  let vi := l.getD i default
  let vj := l.getD j default
  (l.set i vj).set j vi

/-- One iteration (index `i`) of the clash-repair loop of
`tryAutoGenerateKnockout`: on a same-group clash at `i`, swap with the
first acceptable away index; failing that, with the first acceptable
home index; failing both, leave the clash.  (List indexing is total
via `getD`; the JS loop requires both slices to hold 8 entrants, which
the 16-entrant pool guarantees.) -/
def repairAt (p : List Entrant × List Entrant) (i : Nat) :
    List Entrant × List Entrant :=
  let h := p.1
  let a := p.2
  if (h.getD i default).group == (a.getD i default).group then
    match findAwaySwap h a i with
    | some j => (h, swapAt a i j)
    | none =>
      match findHomeSwap h a i with
      | some j => (swapAt h i j, a)
      | none => (h, a)
  else (h, a)

/-- The full repair loop `for (i = 0; i < 8; i++)`. -/
def repairAll (h a : List Entrant) : List Entrant × List Entrant :=
  (List.range 8).foldl repairAt (h, a)

/-- The generation part of `tryAutoGenerateKnockout` (after the three
precondition guards): compute standings, assemble the 16-entrant pool,
shuffle (`sh`), split 8/8, repair clashes, emit the bracket and save
it.  Group rows shorter than the accessed position are skipped where
the JS would throw on `undefined` (unreachable for real 4-team
groups). -/
def knockoutPairing (sh : List Entrant → List Entrant) (st : St) :
    St × List String :=
  let sorted := computeStandings st
  let winners := sorted.enum.foldl
    (fun acc p =>
      match p.2 with
      | el :: _ => acc ++ [(el.1.team, groupLetter p.1)]
      | [] => acc) []
  let seconds := sorted.enum.foldl
    (fun acc p =>
      match p.2 with
      | _ :: el :: _ => acc ++ [(el.1.team, groupLetter p.1)]
      | _ => acc) []
  let bestThirds := (getBestFourThirds sorted).2.map
    (fun t => (t.row.team, t.group))
  let pool : List Entrant :=
    winners.map (fun w => ⟨w.1, w.2, "1st"⟩)
      ++ seconds.map (fun s2 => ⟨s2.1, s2.2, "2nd"⟩)
      ++ bestThirds.map (fun b => ⟨b.1, b.2, "3rd"⟩)
  let shuffled := sh pool
  let slices := repairAll (shuffled.take 8) ((shuffled.drop 8).take 8)
  let r16 := slices.1.enum.map
    (fun p =>
      ({ id := "R16-" ++ toString (p.1 + 1), home := p.2.team,
         away := (slices.2.getD p.1 default).team,
         homeGoals := none, awayGoals := none,
         status := "scheduled" } : Fixture))
  ({ st with knockout := some { r16 := r16, qf := [], sf := [], final := [] } },
    ["Round of 16 generated. Open Knockout page to view bracket."])

/-- `tryAutoGenerateKnockout()` from `src/script.js`: the three
precondition guards (all three rounds generated, 36 played matches, no
existing non-empty first round), then the pairing. -/
def tryAutoGenerateKnockout (sh : List Entrant → List Entrant) (st : St) :
    St × List String :=
  let generatedRounds := st.rounds.getD 0
  if generatedRounds < 3 then (st, [])
  else
    let ms := st.matchList.getD []
    let playedCount := (ms.filter (fun m => m.status == "played")).length
    if playedCount < 36 then (st, [])
    else
      match st.knockout with
      | some b => if b.r16 ≠ [] then (st, []) else knockoutPairing sh st
      | none => knockoutPairing sh st

/-- C4: whenever any knockout precondition fails — fewer than 3 rounds
generated, fewer than 36 played matches, or a stored bracket whose
first round is non-empty — `tryAutoGenerateKnockout` returns with no
alert and the persisted state unchanged.  The third disjunct is what
makes a bracket generated at most once per group stage. -/
theorem tryAutoGenerateKnockout_noop (sh : List Entrant → List Entrant)
    (st : St)
    (h : st.rounds.getD 0 < 3
      ∨ ((st.matchList.getD []).filter
            (fun m => m.status == "played")).length < 36
      ∨ ∃ b, st.knockout = some b ∧ b.r16 ≠ []) :
    tryAutoGenerateKnockout sh st = (st, []) := by
  simp only [tryAutoGenerateKnockout]
  rcases h with h | h | ⟨b, hb, hr⟩
  · simp [h]
  · simp [h]
  · simp [hb, hr]

/-- Witness for `tryAutoGenerateKnockout_noop`: the empty state has no
rounds generated, so the drawer is a no-op. -/
theorem tryAutoGenerateKnockout_noop_witness :
    tryAutoGenerateKnockout id emptySt = (emptySt, []) :=
  tryAutoGenerateKnockout_noop id emptySt (Or.inl (by decide))

theorem bne_comm_str (x y : String) : (x != y) = (y != x) := by
  by_cases hxy : x = y
  · subst hxy; rfl
  · simp only [bne]
    rw [beq_eq_false_iff_ne.mpr hxy, beq_eq_false_iff_ne.mpr (Ne.symm hxy)]

theorem mem_scanIdx (i j : Nat) (hj : j ∈ scanIdx i) : i < j ∧ j < 8 := by
  simp only [scanIdx, List.mem_range'_1] at hj
  omega

/-- C8: at an index `i` with a same-group clash where no away-half
index `j > i` satisfies the no-new-clash condition, the algorithm
attempts the symmetric repair on the home half, scanning `j > i` under
the guard `away[i].group ≠ home[j].group ∧ away[j].group ≠
home[i].group` (`homeSwapOk`); but under the clash `home[i].group =
away[i].group` that guard is equal to the failed away-half guard at
every index, so the home-half scan also finds nothing and the clash is
left in place — both scans fail, exactly the only case in which the
claim permits leaving the clash. -/
theorem repairAt_home_half (h a : List Entrant) (i : Nat)
    (hclash : (h.getD i default).group = (a.getD i default).group)
    (hnoaway : ∀ j, i < j → j < 8 → awaySwapOk h a i j = false) :
    findAwaySwap h a i = none
    ∧ (∀ j, homeSwapOk h a i j = awaySwapOk h a i j)
    ∧ findHomeSwap h a i = none
    ∧ repairAt (h, a) i = (h, a) := by
  have hequiv : ∀ j, homeSwapOk h a i j = awaySwapOk h a i j := by
    intro j
    unfold homeSwapOk awaySwapOk
    rw [← hclash]
    rw [bne_comm_str ((a.getD j default).group) ((h.getD i default).group),
      bne_comm_str ((h.getD i default).group) ((h.getD j default).group)]
    exact Bool.and_comm _ _
  have hAway : findAwaySwap h a i = none := by
    apply List.find?_eq_none.mpr
    intro j hj
    obtain ⟨h1, h2⟩ := mem_scanIdx i j hj
    simp [hnoaway j h1 h2]
  have hHome : findHomeSwap h a i = none := by
    apply List.find?_eq_none.mpr
    intro j hj
    obtain ⟨h1, h2⟩ := mem_scanIdx i j hj
    simp [hequiv j, hnoaway j h1 h2]
  refine ⟨hAway, hequiv, hHome, ?_⟩
  unfold repairAt
  simp [hclash, hAway, hHome]

/-- The home half used by the C8 witness: eight entrants of group A. -/
def hsW : List Entrant := List.replicate 8 ⟨"T", "A", "1st"⟩

/-- The away half used by the C8 witness: eight entrants of group A. -/
def asW : List Entrant := List.replicate 8 ⟨"U", "A", "2nd"⟩

/-- Witness for `repairAt_home_half`: with every entrant in group A the
clash at index 0 has no repair on either half and is left in place. -/
theorem repairAt_home_half_witness :
    findAwaySwap hsW asW 0 = none
    ∧ (∀ j, homeSwapOk hsW asW 0 j = awaySwapOk hsW asW 0 j)
    ∧ findHomeSwap hsW asW 0 = none
    ∧ repairAt (hsW, asW) 0 = (hsW, asW) :=
  repairAt_home_half hsW asW 0 (by decide)
    (by intro j h1 h2; interval_cases j <;> decide)

end Ecup
